import Mathlib

/-!
Verification of the clip-selection core of the shortclips repository.

The embedded functions are `SceneDetector.get_natural_cut_points`
(scene_detector.py), `ClipOrchestrator._adjust_to_scenes` and
`ClipOrchestrator._find_best_segments` (orchestrator.py).  Times are
modelled as rationals.  Python dict records become structures; the
`end` key is rendered as `stop` because `end` is reserved in Lean.
-/

namespace Shortclips

/-- A scene record as produced by `SceneDetector.detect_scenes`:
keys `start`, `end` (here `stop`) and `duration`. -/
structure Scene where
  start : ℚ
  stop : ℚ
  duration : ℚ
  deriving Repr, DecidableEq

/-- A candidate clip record: keys `start`, `end` (here `stop`) and
`duration`. -/
structure Clip where
  start : ℚ
  stop : ℚ
  duration : ℚ
  deriving Repr, DecidableEq

/-- The loop state of `get_natural_cut_points`: the accumulated `clips`
list and the running `current_start` / `current_duration` variables. -/
structure SegState where
  clips : List Clip
  current_start : ℚ
  current_duration : ℚ
  deriving Repr, DecidableEq

/-- One iteration of the `for scene in scenes` loop of
`SceneDetector.get_natural_cut_points` (scene_detector.py lines 101-115). -/
def segStep (min_duration max_duration : ℚ) (st : SegState) (scene : Scene) :
    SegState :=
  if max_duration < st.current_duration + scene.duration then
    { clips :=
        if min_duration ≤ st.current_duration then
          st.clips ++ [⟨st.current_start, scene.start, st.current_duration⟩]
        else st.clips,
      current_start := scene.start,
      current_duration := scene.duration }
  else
    { st with current_duration := st.current_duration + scene.duration }

/-- `SceneDetector.get_natural_cut_points` (scene_detector.py lines 83-125):
greedy grouping of consecutive scenes into clip windows, followed by the
final emission of the remaining window when it reaches `min_duration`
and the scene list is non-empty. -/
def get_natural_cut_points (scenes : List Scene)
    (min_duration max_duration : ℚ) : List Clip :=
  let st := scenes.foldl (segStep min_duration max_duration) ⟨[], 0, 0⟩
  match scenes.getLast? with
  | some last =>
      if min_duration ≤ st.current_duration then
        st.clips ++ [⟨st.current_start, last.stop, st.current_duration⟩]
      else st.clips
  | none => st.clips

/-- One iteration of the `for scene in scenes` loop of
`ClipOrchestrator._adjust_to_scenes` (orchestrator.py lines 196-201):
both boundaries are compared against the *current* values, which may
already have been replaced by an earlier scene in the same scan. -/
def adjustStep (p : ℚ × ℚ) (scene : Scene) : ℚ × ℚ :=
  (if |scene.start - p.1| < 2 then scene.start else p.1,
   if |scene.stop - p.2| < 2 then scene.stop else p.2)

/-- `ClipOrchestrator._adjust_to_scenes` (orchestrator.py lines 193-203). -/
def adjust_to_scenes (start stop : ℚ) (scenes : List Scene) : ℚ × ℚ :=
  scenes.foldl adjustStep (start, stop)

/-- `ClipOrchestrator._find_best_segments` (orchestrator.py lines 146-191):
take the scene-based candidates; when there are fewer than `num_clips`
of them and the scene list is non-empty, replace them wholesale with
evenly spaced fallback windows snapped to scene boundaries and filtered
by `min_duration`; finally truncate to `num_clips`. -/
def find_best_segments (scenes : List Scene) (num_clips : ℕ)
    (min_duration max_duration : ℚ) : List Clip :=
  let potential_clips := get_natural_cut_points scenes min_duration max_duration
  match scenes.getLast? with
  | some last =>
      if potential_clips.length < num_clips then
        let total_duration := last.stop
        let interval := total_duration / (num_clips + 1)
        let fb := (List.range num_clips).foldl (fun acc (i : ℕ) =>
          let start := interval * ((i : ℚ) + 0.5)
          let stop := min (start + max_duration) total_duration
          let p := adjust_to_scenes start stop scenes
          if min_duration ≤ p.2 - p.1 then
            acc ++ [⟨p.1, p.2, p.2 - p.1⟩]
          else acc) []
        fb.take num_clips
      else potential_clips.take num_clips
  | none => potential_clips.take num_clips

/-- The pre-snap start of the `i`-th fallback window of
`_find_best_segments`: `interval * (i + 0.5)` with
`interval = total / (num_clips + 1)`. -/
def fallbackRawStart (total_duration : ℚ) (num_clips : ℕ) (i : ℕ) : ℚ :=
  total_duration / (num_clips + 1) * ((i : ℚ) + 0.5)

/-- The rest of the fallback loop body of `_find_best_segments`, given
the pre-snap start of a window: cap the end at the total duration, snap
both boundaries to scene cuts, and keep the window only when its
post-snap length reaches `min_duration` (returning `none` when it is
discarded). -/
def fallbackFromStart (scenes : List Scene)
    (total_duration min_duration max_duration : ℚ) (start : ℚ) : Option Clip :=
  let stop := min (start + max_duration) total_duration
  let p := adjust_to_scenes start stop scenes
  if min_duration ≤ p.2 - p.1 then some ⟨p.1, p.2, p.2 - p.1⟩ else none

/-- The whole fallback loop body of `_find_best_segments` as one
function from the loop index `i` to the optional window it appends. -/
def fallbackClip (scenes : List Scene) (total_duration : ℚ) (num_clips : ℕ)
    (min_duration max_duration : ℚ) (i : ℕ) : Option Clip :=
  fallbackFromStart scenes total_duration min_duration max_duration
    (fallbackRawStart total_duration num_clips i)

/-- The effect of one `_adjust_to_scenes` scan on a single boundary
value: fold over the list of candidate boundary `targets`, replacing the
running value by any target within 2 seconds of it. -/
def snapFold (targets : List ℚ) (x : ℚ) : ℚ :=
  targets.foldl (fun v t => if |t - v| < 2 then t else v) x

/-- Well-formedness of a scene list as stated by the spec's data model:
ordered, contiguous (each scene's `start` equals the previous scene's
`end`), non-overlapping, with consistent `duration` and non-negative
times. -/
def SceneListWF (scenes : List Scene) : Prop :=
  List.Chain' (fun a b => a.stop = b.start) scenes ∧
    ∀ s ∈ scenes, s.duration = s.stop - s.start ∧ s.start < s.stop ∧ 0 ≤ s.start

/-- The six 10-second scenes of the spec's first concrete scenario. -/
def demoScenes : List Scene :=
  [⟨0, 10, 10⟩, ⟨10, 20, 10⟩, ⟨20, 30, 10⟩,
   ⟨30, 40, 10⟩, ⟨40, 50, 10⟩, ⟨50, 60, 10⟩]

/-- A scene list whose first scene alone exceeds a `max_duration` of 60
seconds. -/
def oversizedScenes : List Scene :=
  [⟨0, 100, 100⟩, ⟨100, 110, 10⟩, ⟨110, 120, 10⟩]

/-- Two 45-second scenes covering a 90-second timeline: with bounds
15/25 they produce exactly 2 scene-based candidates, so asking for 3
clips takes the fallback path over a 90-second total. -/
def halfScenes : List Scene :=
  [⟨0, 45, 45⟩, ⟨45, 90, 45⟩]

/-- Four short scenes whose starts are spaced 1.5 seconds apart,
letting snap-to-scene matches chain during one scan. -/
def chainScenes : List Scene :=
  [⟨0, 1.5, 1.5⟩, ⟨1.5, 3, 1.5⟩, ⟨3, 4.5, 1.5⟩, ⟨4.5, 10, 5.5⟩]

/-- An ordered, contiguous, non-overlapping scene list whose first scene
starts at 5 seconds rather than 0. -/
def offsetScenes : List Scene :=
  [⟨5, 25, 20⟩, ⟨25, 50, 25⟩]

/-! ### Loop invariants of the Scene Segmenter -/

/-- Any predicate preserved by one loop iteration (for scenes drawn from
the input list) is preserved by the whole `get_natural_cut_points`
loop. -/
theorem foldl_segStep_inv (min_duration max_duration : ℚ)
    (P : SegState → Prop) :
    ∀ (scenes : List Scene),
      (∀ st, ∀ sc ∈ scenes, P st → P (segStep min_duration max_duration st sc)) →
      ∀ st, P st → P (scenes.foldl (segStep min_duration max_duration) st) := by
  intro scenes
  induction scenes with
  | nil => intro _ st h; simpa using h
  | cons sc rest ih =>
      intro hstep st h
      simp only [List.foldl_cons]
      exact ih (fun st' sc' hsc' => hstep st' sc' (List.mem_cons_of_mem _ hsc'))
        _ (hstep st sc (List.mem_cons_self _ _) h)

/-- One loop iteration keeps every accumulated clip duration at most
`max_duration` and the running duration at most `max_duration`,
provided the scene itself is not oversized. -/
theorem segStep_ub (min_duration max_duration : ℚ) (st : SegState) (sc : Scene)
    (hsc : sc.duration ≤ max_duration)
    (h : st.current_duration ≤ max_duration ∧
      ∀ c ∈ st.clips, c.duration ≤ max_duration) :
    (segStep min_duration max_duration st sc).current_duration ≤ max_duration ∧
      ∀ c ∈ (segStep min_duration max_duration st sc).clips,
        c.duration ≤ max_duration := by
  obtain ⟨hcd, hclips⟩ := h
  unfold segStep
  split
  · refine ⟨hsc, ?_⟩
    split
    · intro c hc
      rcases List.mem_append.1 hc with h1 | h1
      · exact hclips c h1
      · rw [List.mem_singleton.1 h1]; exact hcd
    · exact hclips
  · exact ⟨not_lt.1 (by assumption), hclips⟩

/-- One loop iteration only ever appends clips whose duration passed the
`min_duration` test. -/
theorem segStep_lb (min_duration max_duration : ℚ) (st : SegState) (sc : Scene)
    (h : ∀ c ∈ st.clips, min_duration ≤ c.duration) :
    ∀ c ∈ (segStep min_duration max_duration st sc).clips,
      min_duration ≤ c.duration := by
  unfold segStep
  split
  · split
    · intro c hc
      rcases List.mem_append.1 hc with h1 | h1
      · exact h c h1
      · rw [List.mem_singleton.1 h1]; assumption
    · exact h
  · exact h

/-- Every clip emitted by the Scene Segmenter has duration at least
`min_duration`, with no hypotheses on the input. -/
theorem get_natural_cut_points_lb (scenes : List Scene)
    (min_duration max_duration : ℚ) :
    ∀ c ∈ get_natural_cut_points scenes min_duration max_duration,
      min_duration ≤ c.duration := by
  unfold get_natural_cut_points
  have key : ∀ c ∈ (scenes.foldl (segStep min_duration max_duration)
      ⟨[], 0, 0⟩).clips, min_duration ≤ c.duration := by
    refine foldl_segStep_inv min_duration max_duration
      (fun st => ∀ c ∈ st.clips, min_duration ≤ c.duration) scenes
      (fun st sc _ h => segStep_lb min_duration max_duration st sc h)
      _ (by simp)
  match hlast : scenes.getLast? with
  | some last =>
      simp only
      split
      · intro c hc
        rcases List.mem_append.1 hc with h1 | h1
        · exact key c h1
        · rw [List.mem_singleton.1 h1]; assumption
      · exact key
  | none => exact key

/-- When no single scene exceeds `max_duration` (and `max_duration` is
non-negative), every clip emitted by the Scene Segmenter has duration
at most `max_duration`. -/
theorem get_natural_cut_points_ub (scenes : List Scene)
    (min_duration max_duration : ℚ) (h0 : 0 ≤ max_duration)
    (hub : ∀ s ∈ scenes, s.duration ≤ max_duration) :
    ∀ c ∈ get_natural_cut_points scenes min_duration max_duration,
      c.duration ≤ max_duration := by
  unfold get_natural_cut_points
  have key : (scenes.foldl (segStep min_duration max_duration)
        ⟨[], 0, 0⟩).current_duration ≤ max_duration ∧
      ∀ c ∈ (scenes.foldl (segStep min_duration max_duration)
        ⟨[], 0, 0⟩).clips, c.duration ≤ max_duration := by
    refine foldl_segStep_inv min_duration max_duration
      (fun st => st.current_duration ≤ max_duration ∧
        ∀ c ∈ st.clips, c.duration ≤ max_duration) scenes
      (fun st sc hsc h => segStep_ub min_duration max_duration st sc
        (hub sc hsc) h) _ ⟨h0, by simp⟩
  match hlast : scenes.getLast? with
  | some last =>
      simp only
      split
      · intro c hc
        rcases List.mem_append.1 hc with h1 | h1
        · exact key.2 c h1
        · rw [List.mem_singleton.1 h1]; exact key.1
      · exact key.2
  | none => exact key.2

/-! ### Concrete evaluations -/

/-- The demo scene list is well formed. -/
theorem demoScenes_wf : SceneListWF demoScenes := by
  constructor
  · simp [demoScenes, List.chain'_cons]
  · intro s hs
    fin_cases hs <;> norm_num [demoScenes]

/-- What the Scene Segmenter produces on the demo scene list with bounds
15 and 25. -/
theorem demoScenes_cut_points :
    get_natural_cut_points demoScenes 15 25 =
      [⟨0, 20, 20⟩, ⟨20, 40, 20⟩, ⟨40, 60, 20⟩] := by
  simp only [demoScenes, get_natural_cut_points, List.foldl, segStep]
  norm_num

/-- The oversized scene list is well formed. -/
theorem oversizedScenes_wf : SceneListWF oversizedScenes := by
  constructor
  · simp [oversizedScenes, List.chain'_cons]
  · intro s hs
    fin_cases hs <;> norm_num [oversizedScenes]

/-- What the Scene Segmenter produces on the oversized scene list with
bounds 15 and 60: the oversized window is emitted first, followed by a
regular window, so the over-`max_duration` window is not the last one. -/
theorem oversizedScenes_cut_points :
    get_natural_cut_points oversizedScenes 15 60 =
      [⟨0, 100, 100⟩, ⟨100, 120, 20⟩] := by
  simp only [oversizedScenes, get_natural_cut_points, List.foldl, segStep]
  norm_num

/-- The two-scene 90-second list is well formed. -/
theorem halfScenes_wf : SceneListWF halfScenes := by
  constructor
  · simp [halfScenes, List.chain'_cons]
  · intro s hs
    fin_cases hs <;> norm_num [halfScenes]

/-- What the Scene Segmenter produces on the two-scene 90-second list
with bounds 15 and 25: exactly two candidates. -/
theorem halfScenes_cut_points :
    get_natural_cut_points halfScenes 15 25 =
      [⟨0, 45, 45⟩, ⟨45, 90, 45⟩] := by
  simp only [halfScenes, get_natural_cut_points, List.foldl, segStep]
  norm_num

/-! ### Claims about the Scene Segmenter -/

/-- Claim C1: on an ordered, contiguous scene list in which no single
scene's duration exceeds `max_duration`, with
`0 < min_duration ≤ max_duration`, every clip emitted by the Scene
Segmenter has `min_duration ≤ duration ≤ max_duration`. -/
theorem seg_duration_bounds_C1 (scenes : List Scene)
    (min_duration max_duration : ℚ) (_hwf : SceneListWF scenes)
    (hmin : 0 < min_duration) (hminmax : min_duration ≤ max_duration)
    (hub : ∀ s ∈ scenes, s.duration ≤ max_duration) :
    ∀ c ∈ get_natural_cut_points scenes min_duration max_duration,
      min_duration ≤ c.duration ∧ c.duration ≤ max_duration :=
  fun c hc =>
    ⟨get_natural_cut_points_lb scenes min_duration max_duration c hc,
     get_natural_cut_points_ub scenes min_duration max_duration
       (le_trans hmin.le hminmax) hub c hc⟩

/-- Witness for C1: the first clip emitted on the demo scene list with
bounds 15 and 25 has its duration inside the bounds. -/
theorem seg_duration_bounds_C1_witness :
    15 ≤ (⟨0, 20, 20⟩ : Clip).duration ∧
      (⟨0, 20, 20⟩ : Clip).duration ≤ 25 :=
  seg_duration_bounds_C1 demoScenes 15 25 demoScenes_wf (by norm_num)
    (by norm_num) (fun s hs => by fin_cases hs <;> norm_num [demoScenes])
    ⟨0, 20, 20⟩ (by rw [demoScenes_cut_points]; simp)

/-- Counterexample to claim C3 as stated: with scenes 0-100, 100-110 and
110-120 and bounds 15/60, the Scene Segmenter emits two windows, and the
window exceeding `max_duration` (duration 100 > 60) is the first of the
two, not the last. -/
theorem overmax_position_C3_counterexample :
    SceneListWF oversizedScenes ∧
    get_natural_cut_points oversizedScenes 15 60 =
      [⟨0, 100, 100⟩, ⟨100, 120, 20⟩] ∧
    (60 : ℚ) < (100 : ℚ) :=
  ⟨oversizedScenes_wf, oversizedScenes_cut_points, by norm_num⟩

/-- Claim C3 (amended): an emitted window may exceed `max_duration` (at
any position in the output, not only the last) only when a single source
scene alone exceeds `max_duration`. -/
theorem overmax_only_if_oversized_C3 (scenes : List Scene)
    (min_duration max_duration : ℚ) (h0 : 0 ≤ max_duration) (c : Clip)
    (hc : c ∈ get_natural_cut_points scenes min_duration max_duration)
    (hover : max_duration < c.duration) :
    ∃ s ∈ scenes, max_duration < s.duration := by
  by_contra hno
  push_neg at hno
  exact absurd (get_natural_cut_points_ub scenes min_duration max_duration h0
    (fun s hs => (hno s hs)) c hc) (not_le.2 hover)

/-- Witness for amended C3: the over-max window of the oversized scene
list really does come from an oversized scene. -/
theorem overmax_only_if_oversized_C3_witness :
    ∃ s ∈ oversizedScenes, (60 : ℚ) < s.duration :=
  overmax_only_if_oversized_C3 oversizedScenes 15 60 (by norm_num)
    ⟨0, 100, 100⟩ (by rw [oversizedScenes_cut_points]; simp) (by norm_num)

/-- Claim C6: on six contiguous 10-second scenes covering 0 to 60 with
bounds 15 and 25, the Scene Segmenter emits the window from 0 to 20, the
window from 20 to 40, and a final 20-second window, every duration lying
within 15 and 25. -/
theorem demo_segmentation_C6 :
    get_natural_cut_points demoScenes 15 25 =
      [⟨0, 20, 20⟩, ⟨20, 40, 20⟩, ⟨40, 60, 20⟩] ∧
    ∀ c ∈ get_natural_cut_points demoScenes 15 25,
      15 ≤ c.duration ∧ c.duration ≤ 25 := by
  refine ⟨demoScenes_cut_points, ?_⟩
  rw [demoScenes_cut_points]
  intro c hc
  fin_cases hc <;> norm_num

/-! ### Claims about the Segment Selector -/

/-- Claim C5: when the Scene Segmenter yields at least `num_clips`
candidates the Segment Selector returns exactly the first `num_clips`
of them in order; for `num_clips = 0` it returns the empty list; and its
output length never exceeds `num_clips`. -/
theorem select_take_C5 (scenes : List Scene) (num_clips : ℕ)
    (min_duration max_duration : ℚ) :
    (num_clips ≤ (get_natural_cut_points scenes min_duration max_duration).length →
      find_best_segments scenes num_clips min_duration max_duration =
        (get_natural_cut_points scenes min_duration max_duration).take num_clips) ∧
    find_best_segments scenes 0 min_duration max_duration = [] ∧
    (find_best_segments scenes num_clips min_duration max_duration).length ≤
      num_clips := by
  rcases hlast : scenes.getLast? with _ | last
  · refine ⟨fun _ => ?_, ?_, ?_⟩ <;>
      simp only [find_best_segments, hlast, List.length_take, min_le_iff,
        le_refl, true_or, List.take_zero]
  · refine ⟨fun hle => ?_, ?_, ?_⟩
    · simp only [find_best_segments, hlast, if_neg (not_lt.2 hle)]
    · simp only [find_best_segments, hlast, Nat.not_lt_zero, if_false,
        List.take_zero]
    · simp only [find_best_segments, hlast]
      split <;> simp [List.length_take]

/-- Witness for C5 on the demo scene list: asking for 2 clips returns
the first 2 of the 3 scene-based candidates. -/
theorem select_take_C5_witness :
    find_best_segments demoScenes 2 15 25 =
      (get_natural_cut_points demoScenes 15 25).take 2 :=
  (select_take_C5 demoScenes 2 15 25).1
    (by rw [demoScenes_cut_points]; norm_num)

/-- A fold that conditionally appends one element per input, as the
fallback loop of `_find_best_segments` does, computes a `filterMap`. -/
theorem foldl_opt_append {α β : Type} (g : α → Option β)
    (body : List β → α → List β)
    (hb : ∀ acc a, body acc a =
      match g a with
      | some b => acc ++ [b]
      | none => acc) :
    ∀ (l : List α) (acc : List β), l.foldl body acc = acc ++ l.filterMap g := by
  intro l
  induction l with
  | nil => intro acc; simp
  | cons a rest ih =>
      intro acc
      rw [List.foldl_cons, ih, hb]
      rcases hg : g a with _ | b <;>
        simp [List.filterMap_cons, hg]

/-- On the fallback path (non-empty scenes, fewer scene-based candidates
than `num_clips`) the Segment Selector computes exactly the kept
fallback windows of indices `0 .. num_clips-1`, truncated to
`num_clips`. -/
theorem find_best_segments_fallback (scenes : List Scene) (last : Scene)
    (num_clips : ℕ) (min_duration max_duration : ℚ)
    (hlast : scenes.getLast? = some last)
    (hlt : (get_natural_cut_points scenes min_duration max_duration).length <
      num_clips) :
    find_best_segments scenes num_clips min_duration max_duration =
      ((List.range num_clips).filterMap
        (fallbackClip scenes last.stop num_clips min_duration
          max_duration)).take num_clips := by
  simp only [find_best_segments, hlast, if_pos hlt]
  congr 1
  rw [foldl_opt_append
    (fallbackClip scenes last.stop num_clips min_duration max_duration) _
    ?_ (List.range num_clips) []]
  · rw [List.nil_append]
  · intro acc i
    simp only [fallbackClip, fallbackFromStart, fallbackRawStart]
    split <;> rfl

/-- Claim C2: on the fallback path, with `total` the last scene's end
and `interval = total / (num_clips + 1)`, the output is exactly the
sequence of windows with pre-snap `start = interval * (i + 0.5)` and
`end = min(start + max_duration, total)` for `i` in
`0 .. num_clips - 1`, each snapped to scene boundaries, kept only when
its post-snap length reaches `min_duration`, and at most `num_clips`
windows are returned. -/
theorem fallback_windows_C2 (scenes : List Scene) (last : Scene)
    (num_clips : ℕ) (min_duration max_duration : ℚ)
    (hlast : scenes.getLast? = some last)
    (hlt : (get_natural_cut_points scenes min_duration max_duration).length <
      num_clips) :
    find_best_segments scenes num_clips min_duration max_duration =
      ((List.range num_clips).filterMap
        (fallbackClip scenes last.stop num_clips min_duration
          max_duration)).take num_clips ∧
    (find_best_segments scenes num_clips min_duration max_duration).length ≤
      num_clips := by
  have h := find_best_segments_fallback scenes last num_clips min_duration
    max_duration hlast hlt
  refine ⟨h, ?_⟩
  rw [h, List.length_take]
  exact min_le_left _ _

/-- Witness for C2: on the two-scene 90-second list with bounds 15/25
there are 2 candidates, so asking for 3 clips yields exactly the kept
fallback windows. -/
theorem fallback_windows_C2_witness :
    find_best_segments halfScenes 3 15 25 =
      ((List.range 3).filterMap (fallbackClip halfScenes 90 3 15 25)).take 3 ∧
    (find_best_segments halfScenes 3 15 25).length ≤ 3 :=
  fallback_windows_C2 halfScenes ⟨45, 90, 45⟩ 3 15 25 rfl
    (by rw [halfScenes_cut_points]; norm_num)

/-- Claim C10: whenever the fallback path is taken, every window the
Segment Selector returns is one of the synthesized fallback windows —
the scene-based candidates are never mixed into the result. -/
theorem fallback_exclusive_C10 (scenes : List Scene) (last : Scene)
    (num_clips : ℕ) (min_duration max_duration : ℚ)
    (hlast : scenes.getLast? = some last)
    (hlt : (get_natural_cut_points scenes min_duration max_duration).length <
      num_clips) :
    ∀ c ∈ find_best_segments scenes num_clips min_duration max_duration,
      ∃ i < num_clips,
        fallbackClip scenes last.stop num_clips min_duration max_duration i =
          some c := by
  intro c hc
  rw [find_best_segments_fallback scenes last num_clips min_duration
    max_duration hlast hlt] at hc
  rcases List.mem_filterMap.1 ((List.take_sublist _ _).subset hc) with
    ⟨i, hi, hg⟩
  exact ⟨i, List.mem_range.1 hi, hg⟩

/-- The first fallback window on the 90-second timeline: pre-snap start
11.25, no scene boundary within 2 seconds, kept with duration 25. -/
theorem halfScenes_fallback0 :
    fallbackClip halfScenes 90 3 15 25 0 = some ⟨45/4, 145/4, 25⟩ := by
  simp only [fallbackClip, fallbackFromStart, fallbackRawStart,
    adjust_to_scenes, adjustStep, halfScenes, List.foldl]
  norm_num [abs_lt, min_def]

/-- The second fallback window on the 90-second timeline. -/
theorem halfScenes_fallback1 :
    fallbackClip halfScenes 90 3 15 25 1 = some ⟨135/4, 235/4, 25⟩ := by
  simp only [fallbackClip, fallbackFromStart, fallbackRawStart,
    adjust_to_scenes, adjustStep, halfScenes, List.foldl]
  norm_num [abs_lt, min_def]

/-- The third fallback window on the 90-second timeline. -/
theorem halfScenes_fallback2 :
    fallbackClip halfScenes 90 3 15 25 2 = some ⟨225/4, 325/4, 25⟩ := by
  simp only [fallbackClip, fallbackFromStart, fallbackRawStart,
    adjust_to_scenes, adjustStep, halfScenes, List.foldl]
  norm_num [abs_lt, min_def]

/-- What the Segment Selector produces on the two-scene 90-second list
when asked for 3 clips with bounds 15/25: the three fallback windows,
whose starts are 11.25, 33.75 and 56.25 seconds. -/
theorem halfScenes_best_segments :
    find_best_segments halfScenes 3 15 25 =
      [⟨45/4, 145/4, 25⟩, ⟨135/4, 235/4, 25⟩, ⟨225/4, 325/4, 25⟩] := by
  rw [find_best_segments_fallback halfScenes ⟨45, 90, 45⟩ 3 15 25 rfl
    (by rw [halfScenes_cut_points]; norm_num)]
  rw [show List.range 3 = [0, 1, 2] from rfl]
  simp [List.filterMap_cons, halfScenes_fallback0, halfScenes_fallback1,
    halfScenes_fallback2]

/-- Witness for C10: the first returned window on the two-scene list is
the synthesized fallback window of index 0. -/
theorem fallback_exclusive_C10_witness :
    ∃ i < 3, fallbackClip halfScenes 90 3 15 25 i =
      some ⟨45/4, 145/4, 25⟩ :=
  fallback_exclusive_C10 halfScenes ⟨45, 90, 45⟩ 3 15 25 rfl
    (by rw [halfScenes_cut_points]; norm_num) ⟨45/4, 145/4, 25⟩
    (by rw [halfScenes_best_segments]; simp)

/-- Counterexample to claim C7 as stated: on a Segment Selector input
with 2 candidates, 3 requested clips and a 90-second timeline, the
synthesized start times are 11.25, 33.75 and 56.25 seconds (the code
divides by `num_clips + 1 = 4`), not the claimed 15, 45 and 75. -/
theorem fallback_starts_C7_counterexample :
    (get_natural_cut_points halfScenes 15 25).length = 2 ∧
    halfScenes.getLast?.map Scene.stop = some 90 ∧
    [fallbackRawStart 90 3 0, fallbackRawStart 90 3 1,
      fallbackRawStart 90 3 2] = [45/4, 135/4, 225/4] ∧
    (find_best_segments halfScenes 3 15 25).map Clip.start =
      [45/4, 135/4, 225/4] ∧
    ([45/4, 135/4, 225/4] : List ℚ) ≠ [15, 45, 75] := by
  refine ⟨by rw [halfScenes_cut_points]; rfl, rfl,
    by norm_num [fallbackRawStart], ?_, by norm_num⟩
  rw [halfScenes_best_segments]; rfl

/-- Claim C7 (amended): on a Segment Selector input with fewer than 3
candidates, 3 requested clips and a 90-second timeline, the fallback
synthesizes 3 windows whose pre-snap start times are
`interval * (i + 0.5)` for `interval = 90 / 4 = 22.5`, that is 11.25,
33.75 and 56.25 seconds, each with pre-snap end capped at 90; the output
is these windows after snapping and the `min_duration` filter. -/
theorem fallback_starts_C7 (scenes : List Scene) (last : Scene)
    (min_duration max_duration : ℚ) (hlast : scenes.getLast? = some last)
    (h90 : last.stop = 90)
    (hlt : (get_natural_cut_points scenes min_duration max_duration).length <
      3) :
    find_best_segments scenes 3 min_duration max_duration =
      [fallbackRawStart 90 3 0, fallbackRawStart 90 3 1,
        fallbackRawStart 90 3 2].filterMap
        (fallbackFromStart scenes 90 min_duration max_duration) ∧
    fallbackRawStart 90 3 0 = 45/4 ∧
    fallbackRawStart 90 3 1 = 135/4 ∧
    fallbackRawStart 90 3 2 = 225/4 := by
  have h := find_best_segments_fallback scenes last 3 min_duration max_duration
    hlast hlt
  rw [h90] at h
  refine ⟨?_, by norm_num [fallbackRawStart], by norm_num [fallbackRawStart],
    by norm_num [fallbackRawStart]⟩
  rw [h, show List.range 3 = [0, 1, 2] from rfl,
    List.take_of_length_le (le_trans (List.length_filterMap_le _ _)
      (by norm_num)),
    show [fallbackRawStart 90 3 0, fallbackRawStart 90 3 1,
      fallbackRawStart 90 3 2] = List.map (fallbackRawStart 90 3) [0, 1, 2]
      from rfl,
    List.filterMap_map]
  rfl

/-- Witness for amended C7 on the two-scene 90-second list. -/
theorem fallback_starts_C7_witness :
    find_best_segments halfScenes 3 15 25 =
      [fallbackRawStart 90 3 0, fallbackRawStart 90 3 1,
        fallbackRawStart 90 3 2].filterMap
        (fallbackFromStart halfScenes 90 15 25) ∧
    fallbackRawStart 90 3 0 = 45/4 ∧
    fallbackRawStart 90 3 1 = 135/4 ∧
    fallbackRawStart 90 3 2 = 225/4 :=
  fallback_starts_C7 halfScenes ⟨45, 90, 45⟩ 15 25 rfl rfl
    (by rw [halfScenes_cut_points]; norm_num)

/-! ### The snap-to-scene scan -/

/-- The `_adjust_to_scenes` scan acts independently on the two
boundaries: the start is folded against the scene starts and the end
against the scene ends. -/
theorem adjust_to_scenes_eq_snapFold (start stop : ℚ) (scenes : List Scene) :
    adjust_to_scenes start stop scenes =
      (snapFold (scenes.map Scene.start) start,
       snapFold (scenes.map Scene.stop) stop) := by
  induction scenes generalizing start stop with
  | nil => rfl
  | cons sc rest ih =>
      simp only [adjust_to_scenes, snapFold, List.foldl_cons, List.map_cons,
        adjustStep] at *
      exact ih _ _

/-- Unfolding the snap scan one target at a time. -/
theorem snapFold_cons (t : ℚ) (rest : List ℚ) (x : ℚ) :
    snapFold (t :: rest) x = snapFold rest (if |t - x| < 2 then t else x) :=
  rfl

/-- A boundary further than 2 seconds from every target is left
untouched by the snap scan. -/
theorem snapFold_no_match (targets : List ℚ) (x : ℚ)
    (h : ∀ t ∈ targets, ¬ |t - x| < 2) : snapFold targets x = x := by
  induction targets with
  | nil => rfl
  | cons t rest ih =>
      rw [snapFold_cons, if_neg (h t (List.mem_cons_self _ _))]
      exact ih (fun t' ht' => h t' (List.mem_cons_of_mem _ ht'))

/-- The snap scan returns the original boundary or one of the targets. -/
theorem snapFold_mem (targets : List ℚ) :
    ∀ x : ℚ, snapFold targets x = x ∨ snapFold targets x ∈ targets := by
  induction targets with
  | nil => intro x; left; rfl
  | cons t rest ih =>
      intro x
      rw [snapFold_cons]
      by_cases h : |t - x| < 2
      · rw [if_pos h]
        rcases ih t with h1 | h1
        · right; rw [h1]; exact List.mem_cons_self _ _
        · right; exact List.mem_cons_of_mem _ h1
      · rw [if_neg h]
        rcases ih x with h1 | h1
        · left; exact h1
        · right; exact List.mem_cons_of_mem _ h1

/-- When some target is within 2 seconds of the original boundary, the
snap scan ends on one of the targets. -/
theorem snapFold_match (targets : List ℚ) :
    ∀ x : ℚ, (∃ t ∈ targets, |t - x| < 2) →
      snapFold targets x ∈ targets := by
  induction targets with
  | nil => rintro x ⟨t, ht, _⟩; simp at ht
  | cons t rest ih =>
      rintro x ⟨t', ht', hlt⟩
      rw [snapFold_cons]
      by_cases hm : |t - x| < 2
      · rw [if_pos hm]
        rcases snapFold_mem rest t with h1 | h1
        · rw [h1]; exact List.mem_cons_self _ _
        · exact List.mem_cons_of_mem _ h1
      · rw [if_neg hm]
        rcases List.mem_cons.1 ht' with rfl | ht''
        · exact absurd hlt hm
        · exact List.mem_cons_of_mem _ (ih x ⟨t', ht'', hlt⟩)

/-- One step of the snap scan is monotone in the running boundary, hence
so is the whole scan. -/
theorem snapFold_mono (targets : List ℚ) :
    ∀ x y : ℚ, x ≤ y → snapFold targets x ≤ snapFold targets y := by
  induction targets with
  | nil => intro x y h; exact h
  | cons t rest ih =>
      intro x y h
      rw [snapFold_cons, snapFold_cons]
      apply ih
      by_cases hx : |t - x| < 2 <;> by_cases hy : |t - y| < 2
      · simp [hx, hy]
      · rw [if_pos hx, if_neg hy]
        rw [abs_lt] at hx
        rw [abs_lt, not_and_or, not_lt, not_lt] at hy
        rcases hy with h1 | h1 <;> linarith
      · rw [if_neg hx, if_pos hy]
        rw [abs_lt] at hy
        rw [abs_lt, not_and_or, not_lt, not_lt] at hx
        rcases hx with h1 | h1 <;> linarith
      · rw [if_neg hx, if_neg hy]; exact h

/-- The chain scene list is well formed. -/
theorem chainScenes_wf : SceneListWF chainScenes := by
  constructor
  · simp [chainScenes, List.chain'_cons]
  · intro s hs
    fin_cases hs <;> norm_num [chainScenes]

/-- Counterexample to claim C4 as stated: on four scenes whose starts
are 0, 1.5, 3 and 4.5, a window start of 0.5 is within 2 seconds of the
scene starts 0 and 1.5 only, yet the scan returns 4.5 — the matches
chain through already-snapped values, so the result is not the start of
any scene within 2 seconds of the original value. -/
theorem snap_chain_C4_counterexample :
    SceneListWF chainScenes ∧
    (adjust_to_scenes 0.5 20 chainScenes).1 = 4.5 ∧
    (∃ s ∈ chainScenes, |s.start - 0.5| < 2) ∧
    (∀ s ∈ chainScenes, |s.start - 0.5| < 2 → s.start ≠ 4.5) := by
  refine ⟨chainScenes_wf, ?_, ?_, ?_⟩
  · simp only [chainScenes, adjust_to_scenes, adjustStep, List.foldl]
    norm_num [abs_lt]
  · exact ⟨⟨0, 1.5, 1.5⟩, by simp [chainScenes], by norm_num [abs_lt]⟩
  · intro s hs
    fin_cases hs <;> norm_num [chainScenes, abs_lt]

/-- Claim C4 (amended): the snap scan mutates the window boundary as it
walks the scenes, each scene being compared against the current,
possibly already-snapped value.  A window boundary further than
2 seconds from every scene boundary keeps its raw value; one within
2 seconds of some scene boundary is replaced by the boundary of some
scene — the last one matched by the running value, which through
chained matches need not be within 2 seconds of the raw value.  The
start is compared against scene starts and the end against scene
ends. -/
theorem snap_tolerance_C4 (start stop : ℚ) (scenes : List Scene) :
    ((∀ s ∈ scenes, ¬ |s.start - start| < 2) →
      (adjust_to_scenes start stop scenes).1 = start) ∧
    ((∀ s ∈ scenes, ¬ |s.stop - stop| < 2) →
      (adjust_to_scenes start stop scenes).2 = stop) ∧
    ((∃ s ∈ scenes, |s.start - start| < 2) →
      ∃ s ∈ scenes, (adjust_to_scenes start stop scenes).1 = s.start) ∧
    ((∃ s ∈ scenes, |s.stop - stop| < 2) →
      ∃ s ∈ scenes, (adjust_to_scenes start stop scenes).2 = s.stop) := by
  rw [adjust_to_scenes_eq_snapFold]
  refine ⟨?_, ?_, ?_, ?_⟩
  · intro h
    refine snapFold_no_match _ _ (fun t ht => ?_)
    rcases List.mem_map.1 ht with ⟨s, hs, rfl⟩
    exact h s hs
  · intro h
    refine snapFold_no_match _ _ (fun t ht => ?_)
    rcases List.mem_map.1 ht with ⟨s, hs, rfl⟩
    exact h s hs
  · rintro ⟨s, hs, hlt⟩
    have hmem := snapFold_match (scenes.map Scene.start) start
      ⟨s.start, List.mem_map_of_mem _ hs, hlt⟩
    rcases List.mem_map.1 hmem with ⟨s', hs', he⟩
    exact ⟨s', hs', he.symm⟩
  · rintro ⟨s, hs, hlt⟩
    have hmem := snapFold_match (scenes.map Scene.stop) stop
      ⟨s.stop, List.mem_map_of_mem _ hs, hlt⟩
    rcases List.mem_map.1 hmem with ⟨s', hs', he⟩
    exact ⟨s', hs', he.symm⟩

/-- Witness for amended C4: a window from 100 to 200 is further than
2 seconds from every demo scene boundary, so both boundaries survive the
scan unchanged; and the chained window start 0.5 really lands on the
start of one of the chain scenes. -/
theorem snap_tolerance_C4_witness :
    (adjust_to_scenes 100 200 demoScenes).1 = 100 ∧
    (adjust_to_scenes 100 200 demoScenes).2 = 200 ∧
    (∃ s ∈ chainScenes, (adjust_to_scenes 0.5 20 chainScenes).1 = s.start) :=
  ⟨(snap_tolerance_C4 100 200 demoScenes).1
      (fun s hs => by fin_cases hs <;> norm_num [demoScenes, abs_lt]),
   (snap_tolerance_C4 100 200 demoScenes).2.1
      (fun s hs => by fin_cases hs <;> norm_num [demoScenes, abs_lt]),
   (snap_tolerance_C4 0.5 20 chainScenes).2.2.1
      ⟨⟨0, 1.5, 1.5⟩, by simp [chainScenes], by norm_num [abs_lt]⟩⟩

/-! ### Duration consistency (claim C8) -/

/-- A kept fallback window always records `duration = end - start`. -/
theorem fallbackClip_dur (scenes : List Scene)
    (total_duration : ℚ) (num_clips : ℕ) (min_duration max_duration : ℚ)
    (i : ℕ) (c : Clip)
    (h : fallbackClip scenes total_duration num_clips min_duration
      max_duration i = some c) :
    c.duration = c.stop - c.start := by
  simp only [fallbackClip, fallbackFromStart] at h
  split at h
  · rw [← Option.some.inj h]
  · exact absurd h (by simp)

/-- Position invariant of the Scene Segmenter loop: on contiguous scenes
with consistent durations, if `current_start + current_duration` equals
the start of the next scene to process, then every accumulated clip has
`duration = end - start`, and after the loop
`current_start + current_duration` equals the last scene's end. -/
theorem foldl_segStep_dur (min_duration max_duration : ℚ) :
    ∀ (scenes : List Scene) (st : SegState),
      List.Chain' (fun a b => a.stop = b.start) scenes →
      (∀ s ∈ scenes, s.duration = s.stop - s.start) →
      (∀ a ∈ scenes.head?, st.current_start + st.current_duration = a.start) →
      (∀ c ∈ st.clips, c.duration = c.stop - c.start) →
      (∀ c ∈ (scenes.foldl (segStep min_duration max_duration) st).clips,
        c.duration = c.stop - c.start) ∧
      (scenes.foldl (segStep min_duration max_duration) st).current_start +
        (scenes.foldl (segStep min_duration max_duration)
          st).current_duration =
        (scenes.getLast?.map Scene.stop).getD
          (st.current_start + st.current_duration) := by
  intro scenes
  induction scenes with
  | nil => intro st _ _ _ hclips; exact ⟨hclips, rfl⟩
  | cons sc rest ih =>
      intro st hchain hdur hhead hclips
      simp only [List.foldl_cons]
      have hpos : st.current_start + st.current_duration = sc.start :=
        hhead sc rfl
      have hdursc : sc.duration = sc.stop - sc.start :=
        hdur sc (List.mem_cons_self _ _)
      have hstep_pos :
          (segStep min_duration max_duration st sc).current_start +
            (segStep min_duration max_duration st sc).current_duration =
            sc.stop := by
        unfold segStep; split
        · simp only; linarith
        · simp only; linarith
      have hstep_clips :
          ∀ c ∈ (segStep min_duration max_duration st sc).clips,
            c.duration = c.stop - c.start := by
        unfold segStep; split
        · split
          · intro c hc
            rcases List.mem_append.1 hc with h1 | h1
            · exact hclips c h1
            · rw [List.mem_singleton.1 h1]
              show st.current_duration = sc.start - st.current_start
              linarith
          · exact hclips
        · exact hclips
      have hh' : ∀ a ∈ rest.head?,
          (segStep min_duration max_duration st sc).current_start +
            (segStep min_duration max_duration st sc).current_duration =
            a.start := by
        intro a ha
        rw [hstep_pos]
        cases rest with
        | nil => simp at ha
        | cons b l =>
            have hr : sc.stop = b.start := (List.chain'_cons.1 hchain).1
            have hab : a = b := by
              have := ha
              simp only [List.head?_cons, Option.mem_def,
                Option.some.injEq] at this
              exact this.symm
            rw [hab, ← hr]
      have hres := ih (segStep min_duration max_duration st sc)
        (List.Chain'.tail hchain)
        (fun s hs => hdur s (List.mem_cons_of_mem _ hs)) hh' hstep_clips
      refine ⟨hres.1, ?_⟩
      have h2 := hres.2
      rw [hstep_pos] at h2
      cases rest with
      | nil => simpa using h2
      | cons b l => rw [List.getLast?_cons_cons]; exact h2

/-- On a contiguous scene list that starts at time 0, every clip emitted
by the Scene Segmenter records `duration = end - start`. -/
theorem get_natural_cut_points_dur (scenes : List Scene)
    (min_duration max_duration : ℚ)
    (hchain : List.Chain' (fun a b => a.stop = b.start) scenes)
    (hdur : ∀ s ∈ scenes, s.duration = s.stop - s.start)
    (hzero : ∀ a ∈ scenes.head?, a.start = 0) :
    ∀ c ∈ get_natural_cut_points scenes min_duration max_duration,
      c.duration = c.stop - c.start := by
  unfold get_natural_cut_points
  have hinit : ∀ a ∈ scenes.head?,
      (0 : ℚ) + (0 : ℚ) = Scene.start a := by
    intro a ha; rw [hzero a ha]; norm_num
  have key := foldl_segStep_dur min_duration max_duration scenes ⟨[], 0, 0⟩
    hchain hdur hinit (by simp)
  match hlast : scenes.getLast? with
  | some last =>
      simp only
      split
      · intro c hc
        rcases List.mem_append.1 hc with h1 | h1
        · exact key.1 c h1
        · rw [List.mem_singleton.1 h1]
          have h2 := key.2
          rw [hlast] at h2
          simp only [Option.map_some', Option.getD_some] at h2
          show (scenes.foldl (segStep min_duration max_duration)
              ⟨[], 0, 0⟩).current_duration = last.stop -
              (scenes.foldl (segStep min_duration max_duration)
                ⟨[], 0, 0⟩).current_start
          linarith
      · exact key.1
  | none => exact key.1

/-- The offset scene list is well formed (ordered, contiguous,
non-overlapping). -/
theorem offsetScenes_wf : SceneListWF offsetScenes := by
  constructor
  · simp [offsetScenes, List.chain'_cons]
  · intro s hs
    fin_cases hs <;> norm_num [offsetScenes]

/-- What the Scene Segmenter produces on the offset scene list with
bounds 15 and 30. -/
theorem offsetScenes_cut_points :
    get_natural_cut_points offsetScenes 15 30 =
      [⟨0, 25, 20⟩, ⟨25, 50, 25⟩] := by
  simp only [offsetScenes, get_natural_cut_points, List.foldl, segStep]
  norm_num

/-- Counterexample to claim C8 as stated: on an ordered, contiguous,
non-overlapping scene list whose first scene starts at 5 seconds, the
Scene Segmenter's first clip runs from 0 to 25 but records duration 20
(the sum of the grouped scene durations), so its `duration` attribute is
not `end - start`. -/
theorem duration_attr_C8_counterexample :
    SceneListWF offsetScenes ∧
    get_natural_cut_points offsetScenes 15 30 =
      [⟨0, 25, 20⟩, ⟨25, 50, 25⟩] ∧
    (⟨0, 25, 20⟩ : Clip).duration ≠
      (⟨0, 25, 20⟩ : Clip).stop - (⟨0, 25, 20⟩ : Clip).start :=
  ⟨offsetScenes_wf, offsetScenes_cut_points, by norm_num⟩

/-- Claim C8 (amended): on an ordered, contiguous, non-overlapping scene
input whose first scene starts at time 0, every CandidateClip produced
by the Scene Segmenter or by the Segment Selector (fallback included)
has its `duration` attribute equal to `end - start`. -/
theorem duration_attr_C8 (scenes : List Scene) (num_clips : ℕ)
    (min_duration max_duration : ℚ) (hwf : SceneListWF scenes)
    (hzero : ∀ a ∈ scenes.head?, a.start = 0) :
    (∀ c ∈ get_natural_cut_points scenes min_duration max_duration,
      c.duration = c.stop - c.start) ∧
    (∀ c ∈ find_best_segments scenes num_clips min_duration max_duration,
      c.duration = c.stop - c.start) := by
  have hseg := get_natural_cut_points_dur scenes min_duration max_duration
    hwf.1 (fun s hs => (hwf.2 s hs).1) hzero
  refine ⟨hseg, ?_⟩
  intro c hc
  rcases hlast : scenes.getLast? with _ | last
  · simp only [find_best_segments, hlast] at hc
    exact hseg c ((List.take_sublist _ _).subset hc)
  · by_cases hlt : (get_natural_cut_points scenes min_duration
        max_duration).length < num_clips
    · rw [find_best_segments_fallback scenes last num_clips min_duration
        max_duration hlast hlt] at hc
      rcases List.mem_filterMap.1 ((List.take_sublist _ _).subset hc) with
        ⟨i, _, hg⟩
      exact fallbackClip_dur scenes last.stop num_clips min_duration
        max_duration i c hg
    · simp only [find_best_segments, hlast, if_neg hlt] at hc
      exact hseg c ((List.take_sublist _ _).subset hc)

/-- Witness for amended C8 on the demo scene list. -/
theorem duration_attr_C8_witness :
    (∀ c ∈ get_natural_cut_points demoScenes 15 25,
      c.duration = c.stop - c.start) ∧
    (∀ c ∈ find_best_segments demoScenes 2 15 25,
      c.duration = c.stop - c.start) :=
  duration_attr_C8 demoScenes 2 15 25 demoScenes_wf
    (fun a ha => by
      rw [show demoScenes.head? = some ⟨0, 10, 10⟩ from rfl,
        Option.mem_def, Option.some.injEq] at ha
      rw [← ha])

/-! ### Output ordering (claim C9) -/

/-- A well-formed scene list has non-decreasing starts. -/
theorem wf_start_le (scenes : List Scene) (hwf : SceneListWF scenes) :
    List.Pairwise (fun a b : Scene => a.start ≤ b.start) scenes := by
  induction scenes with
  | nil => exact List.Pairwise.nil
  | cons a rest ih =>
      have hwf' : SceneListWF rest :=
        ⟨hwf.1.tail, fun s hs => hwf.2 s (List.mem_cons_of_mem _ hs)⟩
      refine List.pairwise_cons.2 ⟨?_, ih hwf'⟩
      cases rest with
      | nil => simp
      | cons c l =>
          have hcl := ih hwf'
          have h1 : ∀ x ∈ l, c.start ≤ x.start := (List.pairwise_cons.1 hcl).1
          have hac : a.start ≤ c.start := by
            have h2 : a.stop = c.start := (List.chain'_cons.1 hwf.1).1
            have h3 : a.start < a.stop :=
              (hwf.2 a (List.mem_cons_self _ _)).2.1
            linarith
          intro b hb
          rcases List.mem_cons.1 hb with rfl | hb'
          · exact hac
          · exact hac.trans (h1 b hb')

/-- Ordering invariant of the Scene Segmenter loop: with scene starts
non-decreasing and the running window start below every remaining scene
start, the accumulated clips stay sorted by start and below the running
window start. -/
theorem foldl_segStep_sorted (min_duration max_duration : ℚ) :
    ∀ (scenes : List Scene) (st : SegState),
      List.Pairwise (fun a b : Scene => a.start ≤ b.start) scenes →
      (∀ s ∈ scenes, st.current_start ≤ s.start) →
      List.Pairwise (fun a b : Clip => a.start ≤ b.start) st.clips →
      (∀ c ∈ st.clips, c.start ≤ st.current_start) →
      List.Pairwise (fun a b : Clip => a.start ≤ b.start)
        (scenes.foldl (segStep min_duration max_duration) st).clips ∧
      ∀ c ∈ (scenes.foldl (segStep min_duration max_duration) st).clips,
        c.start ≤
          (scenes.foldl (segStep min_duration max_duration)
            st).current_start := by
  intro scenes
  induction scenes with
  | nil => intro st _ _ h1 h2; exact ⟨h1, h2⟩
  | cons sc rest ih =>
      intro st hsort hge hpw hle
      simp only [List.foldl_cons]
      apply ih
      · exact (List.pairwise_cons.1 hsort).2
      · intro s hs
        unfold segStep; split
        · simp only; exact (List.pairwise_cons.1 hsort).1 s hs
        · simp only; exact hge s (List.mem_cons_of_mem _ hs)
      · unfold segStep; split
        · split
          · refine List.pairwise_append.2
              ⟨hpw, List.pairwise_singleton _ _, ?_⟩
            intro c hc b hb
            rw [List.mem_singleton.1 hb]
            exact hle c hc
          · exact hpw
        · exact hpw
      · unfold segStep; split
        · split
          · intro c hc
            rcases List.mem_append.1 hc with h1 | h1
            · exact (hle c h1).trans (hge sc (List.mem_cons_self _ _))
            · rw [List.mem_singleton.1 h1]
              exact hge sc (List.mem_cons_self _ _)
          · intro c hc
            exact (hle c hc).trans (hge sc (List.mem_cons_self _ _))
        · exact hle

/-- On a well-formed scene list the Scene Segmenter's output is sorted
by start. -/
theorem get_natural_cut_points_sorted (scenes : List Scene)
    (min_duration max_duration : ℚ) (hwf : SceneListWF scenes) :
    List.Pairwise (fun a b : Clip => a.start ≤ b.start)
      (get_natural_cut_points scenes min_duration max_duration) := by
  unfold get_natural_cut_points
  have key := foldl_segStep_sorted min_duration max_duration scenes ⟨[], 0, 0⟩
    (wf_start_le scenes hwf) (fun s hs => (hwf.2 s hs).2.2) (by simp)
    (by simp)
  match scenes.getLast? with
  | some last =>
      simp only
      split
      · refine List.pairwise_append.2
          ⟨key.1, List.pairwise_singleton _ _, ?_⟩
        intro c hc b hb
        rw [List.mem_singleton.1 hb]
        exact key.2 c hc
      · exact key.1
  | none => exact key.1

/-- The post-snap start of a kept fallback window is the snap scan of
its pre-snap start against the scene starts. -/
theorem fallbackFromStart_start (scenes : List Scene)
    (total_duration min_duration max_duration r : ℚ) (c : Clip)
    (h : fallbackFromStart scenes total_duration min_duration max_duration r =
      some c) :
    c.start = snapFold (scenes.map Scene.start) r := by
  simp only [fallbackFromStart, adjust_to_scenes_eq_snapFold] at h
  split at h
  · rw [← Option.some.inj h]
  · exact absurd h (by simp)

/-- Pre-snap fallback starts are monotone in the window index when the
timeline is non-negative. -/
theorem fallbackRawStart_mono (total_duration : ℚ) (num_clips : ℕ)
    (h0 : 0 ≤ total_duration) {i j : ℕ} (hij : i ≤ j) :
    fallbackRawStart total_duration num_clips i ≤
      fallbackRawStart total_duration num_clips j := by
  unfold fallbackRawStart
  apply mul_le_mul_of_nonneg_left
  · exact add_le_add_right (Nat.cast_le.2 hij) _
  · exact div_nonneg h0 (by positivity)

/-- The kept fallback windows, in generation order, are sorted by
start. -/
theorem fallback_clips_sorted (scenes : List Scene)
    (total_duration : ℚ) (num_clips : ℕ) (min_duration max_duration : ℚ)
    (h0 : 0 ≤ total_duration) :
    List.Pairwise (fun a b : Clip => a.start ≤ b.start)
      ((List.range num_clips).filterMap
        (fallbackClip scenes total_duration num_clips min_duration
          max_duration)) := by
  refine List.Pairwise.filterMap _ ?_ (List.pairwise_lt_range num_clips)
  intro i j hij c hc d hd
  simp only [fallbackClip, Option.mem_def] at hc hd
  rw [fallbackFromStart_start scenes total_duration min_duration max_duration
      _ c hc,
    fallbackFromStart_start scenes total_duration min_duration max_duration
      _ d hd]
  exact snapFold_mono _ _ _
    (fallbackRawStart_mono total_duration num_clips h0 hij.le)

/-- Claim C9: on a well-formed (ordered, contiguous) scene input, the
output sequences of the Scene Segmenter and of the Segment Selector
(fallback path included, after snap-to-scene adjustment) are
non-decreasing in start from one element to the next. -/
theorem output_sorted_C9 (scenes : List Scene) (num_clips : ℕ)
    (min_duration max_duration : ℚ) (hwf : SceneListWF scenes) :
    List.Pairwise (fun a b : Clip => a.start ≤ b.start)
      (get_natural_cut_points scenes min_duration max_duration) ∧
    List.Pairwise (fun a b : Clip => a.start ≤ b.start)
      (find_best_segments scenes num_clips min_duration max_duration) := by
  have hseg := get_natural_cut_points_sorted scenes min_duration max_duration
    hwf
  refine ⟨hseg, ?_⟩
  rcases hlast : scenes.getLast? with _ | last
  · simp only [find_best_segments, hlast]
    exact List.Pairwise.sublist (List.take_sublist _ _) hseg
  · by_cases hlt : (get_natural_cut_points scenes min_duration
        max_duration).length < num_clips
    · rw [find_best_segments_fallback scenes last num_clips min_duration
        max_duration hlast hlt]
      have hmem : last ∈ scenes := by
        rcases List.mem_getLast?_eq_getLast
          (show last ∈ scenes.getLast? from hlast) with ⟨h, he⟩
        rw [he]; exact List.getLast_mem h
      have h0 : 0 ≤ last.stop :=
        le_of_lt (lt_of_le_of_lt (hwf.2 last hmem).2.2 (hwf.2 last hmem).2.1)
      exact List.Pairwise.sublist (List.take_sublist _ _)
        (fallback_clips_sorted scenes last.stop num_clips min_duration
          max_duration h0)
    · simp only [find_best_segments, hlast, if_neg hlt]
      exact List.Pairwise.sublist (List.take_sublist _ _) hseg

/-- Witness for C9 on the demo scene list with 3 requested clips. -/
theorem output_sorted_C9_witness :
    List.Pairwise (fun a b : Clip => a.start ≤ b.start)
      (get_natural_cut_points demoScenes 15 25) ∧
    List.Pairwise (fun a b : Clip => a.start ≤ b.start)
      (find_best_segments demoScenes 3 15 25) :=
  output_sorted_C9 demoScenes 3 15 25 demoScenes_wf

end Shortclips
